import Mathlib

/-
  Verification of the LED animation engine in
  abstract_hardware_interface/led/animations.py.

  The embedding is a shallow one:

  * A color is its rgb tuple (the code only ever consumes
    Color.as_rgb_tuple(), a 3-tuple of numeric channels); Color.BLACK is
    the all-zero tuple.  Numeric channels and delays are modelled as
    exact rationals.
  * Each animation's start() is translated to a function that produces
    the list of device calls (set_led / fill / show) and waits it issues,
    together with an Option wrapper: some trace when the loop exited,
    none when the supplied fuel ran out before the loop exited.  Loops in
    the source are while-loops; the fuel argument only bounds how far we
    unroll them and appears nowhere in the source.
  * The two sources of nondeterminism visible to a run - an external
    stop() raised from another thread and the wall-clock comparison
    time() > end_time - are supplied by an environment: extStop k is the
    value the k-th stopping.is_set() poll reads from an externally
    raised stop, and timeUp k the value of the k-th deadline comparison.
    The internal stopping.set() calls performed by the animation itself
    are threaded explicitly as a boolean flag.
  * The per-instance threading.Event objects (_delay from
    LedAnimation.__init__ and the per-pattern stopping event) are also
    modelled directly as booleans where a claim is about them.
-/

namespace LedAnimations

/-- A color as its 3-channel rgb tuple (the result of as_rgb_tuple). -/
structure Color where
  r : ℚ
  g : ℚ
  b : ℚ
deriving DecidableEq

/-- Color.BLACK, the all-zero off color. -/
def Color.BLACK : Color := ⟨0, 0, 0⟩

/-- tuple(brightness * part for part in color.as_rgb_tuple()), the scaled
color used by BreatheLedAnimation. -/
def Color.scale (k : ℚ) (c : Color) : Color := ⟨k * c.r, k * c.g, k * c.b⟩

/-- One observable action of a running animation: a device call
(set_led with its immediate_show flag, fill, show), one cancellable-wait
call with its requested duration, or a LOG.warning emission. -/
inductive LedOp where
  | setLed (idx : Nat) (c : Color) (immediate : Bool)
  | fill (c : Color)
  | showLeds
  | wait (seconds : ℚ)
  | warn
deriving DecidableEq

/-- Effect of one operation on the LED buffer (a list of colors indexed
by LED position).  set_led writes one index, fill writes every index;
show, wait and the warning do not change the buffer. -/
def applyOp (leds : List Color) : LedOp → List Color
  | .setLed i c _ => leds.set i c
  | .fill c => List.replicate leds.length c
  | .showLeds => leds
  | .wait _ => leds
  | .warn => leds

/-- Effect of a whole trace on the LED buffer. -/
def applyOps (leds : List Color) (ops : List LedOp) : List Color :=
  ops.foldl applyOp leds

/-- Environment of one start() run: extStop k is what the k-th
stopping.is_set() poll reads from an externally raised stop(), and
timeUp k is the value of the k-th time() > end_time comparison. -/
structure Env where
  extStop : Nat → Bool
  timeUp : Nat → Bool

/-- Quiescent environment: stop() is never called and no deadline ever
expires. -/
def qEnv : Env := ⟨fun _ => false, fun _ => false⟩

/-- Environment in which an external stop() is raised during the first
loop iteration: every poll from the second one (index 1) onward reads
the stop. -/
def envStopAt1 : Env := ⟨fun k => decide (1 ≤ k), fun _ => false⟩

/-- Environment in which stop() lands between stopping.clear() and the
very first stopping.is_set() poll: every poll reads the stop. -/
def envStopAlways : Env := ⟨fun _ => true, fun _ => false⟩

/-- Truthiness of the timeout parameter: end_time is computed only when
timeout is present and nonzero (Python: time() + timeout if timeout
else None). -/
def hasDeadline (timeout : Option ℚ) : Bool :=
  match timeout with
  | none => false
  | some t => !(decide (t = 0))

/-- State of the two threading.Event objects owned by an animation
instance: _delay, created in LedAnimation.init and waited on by every
animation, and the per-pattern stopping event. -/
structure AnimSignals where
  delaySet : Bool
  stoppingSet : Bool
deriving DecidableEq

/-- LedAnimation.init: both Event objects start unset. -/
def initSignals : AnimSignals := ⟨false, false⟩

/-- How long self.delay.wait(seconds) blocks: an Event wait returns
immediately when the event is set and only after the full duration
otherwise.  No statement in the source ever sets the _delay event, so in
the code delaySet stays false for the whole life of an instance. -/
def waitDuration (s : AnimSignals) (seconds : ℚ) : ℚ :=
  if s.delaySet then 0 else seconds

/-- stop() as written identically in Breathe, Chase, Refill, Bounce,
Blink and Alternating: self.stopping.set(), and nothing else. -/
def stopSignal (s : AnimSignals) : AnimSignals := { s with stoppingSet := true }

/-- FillLedAnimation.stop: pass. -/
def fillStopSignal (s : AnimSignals) : AnimSignals := s

/-- Indices visited by FillLedAnimation.start: range(num_leds), reversed
when self.reverse is set. -/
def fillIdxs (n : Nat) (rev : Bool) : List Nat :=
  if rev then (List.range n).reverse else List.range n

/-- The per-LED loop of FillLedAnimation.start: set each visited index
to fill_color, then wait step_delay (0.05). -/
def fillPassOps (n : Nat) (c : Color) (rev : Bool) : List LedOp :=
  (fillIdxs n rev).flatMap fun led => [LedOp.setLed led c true, LedOp.wait 0.05]

/-- FillLedAnimation.start(timeout, one_shot): warn when not one_shot or
a timeout was supplied, then run the single fill pass.  There is no
stopping poll and no off restoration. -/
def fillStartOps (n : Nat) (c : Color) (rev : Bool)
    (timeout : Option ℚ) (oneShot : Bool) : List LedOp :=
  (if !oneShot || timeout.isSome then [LedOp.warn] else []) ++ fillPassOps n c rev

/-- Indices written (by set_led) in a trace, in order. -/
def setIndices (ops : List LedOp) : List Nat :=
  ops.filterMap fun op =>
    match op with
    | .setLed i _ _ => some i
    | _ => none

/-- Indices written with a non-BLACK color in a trace, in order. -/
def litIndices (ops : List LedOp) : List Nat :=
  ops.filterMap fun op =>
    match op with
    | .setLed i c _ => if c = Color.BLACK then none else some i
    | _ => none

/-- Colors of the fill calls of a trace, in order. -/
def fillsOf (ops : List LedOp) : List Color :=
  ops.filterMap fun op =>
    match op with
    | .fill c => some c
    | _ => none

/-- Durations of the wait calls of a trace, in order. -/
def waitsOf (ops : List LedOp) : List ℚ :=
  ops.filterMap fun op =>
    match op with
    | .wait s => some s
    | _ => none

/-- Boolean test for a wait operation. -/
def isWaitB : LedOp → Bool
  | .wait _ => true
  | _ => false

/-- Boolean test for a set_led operation. -/
def isSetLedB : LedOp → Bool
  | .setLed _ _ _ => true
  | _ => false

/-- Boolean test for the warning operation. -/
def isWarnB : LedOp → Bool
  | .warn => true
  | _ => false

/-- Step size self.step of BreatheLedAnimation (0.05). -/
def breatheStep : ℚ := 0.05

/-- Step delay self.step_delay of BreatheLedAnimation (0.05). -/
def breatheStepDelay : ℚ := 0.05

/-- The while loop of BreatheLedAnimation.start, emitting the brightness
value of each iteration.  Arguments after the environment: remaining
fuel, brightness, step, ending, the internal stopping flag, and the poll
counter.  Each iteration reverses the step at the 1 and 0 bounds, adds
the step to the brightness, fills the LEDs with the scaled color (the
emitted value determines that fill), waits step_delay, then runs the
one_shot / ending / deadline elif chain. -/
def breatheLoopB (hasDl oneShot : Bool) (env : Env) :
    Nat → ℚ → ℚ → Bool → Bool → Nat → Option (List ℚ)
  | 0, _, _, _, _, _ => none
  | fuel + 1, b, s, ending, stopFlag, k =>
    if stopFlag || env.extStop k then some [] else
      let s1 := if b ≥ 1 then -breatheStep else if b ≤ 0 then breatheStep else s
      let b1 := b + s1
      let ending1 := if oneShot && b1 ≥ 1 then true else ending
      let stopFlag1 :=
        if oneShot && b1 ≥ 1 then stopFlag
        else if ending && b1 ≤ 0 then true
        else if hasDl && env.timeUp k then true
        else stopFlag
      (breatheLoopB hasDl oneShot env fuel b1 s1 ending1 stopFlag1 (k + 1)).map
        fun rest => b1 :: rest

/-- Device trace of one brightness value of the breathe loop: the fill
with the scaled color followed by the step-delay wait. -/
def breatheFrame (color : Color) (b : ℚ) : List LedOp :=
  [LedOp.fill (Color.scale b color), LedOp.wait breatheStepDelay]

/-- BreatheLedAnimation.start: clear the stopping flag, run the loop
from brightness 0, then fill BLACK. -/
def breatheTrace (color : Color) (timeout : Option ℚ) (oneShot : Bool)
    (env : Env) (fuel : Nat) : Option (List LedOp) :=
  (breatheLoopB (hasDeadline timeout) oneShot env fuel 0 breatheStep false false 0).map
    fun bs => (bs.flatMap (breatheFrame color)) ++ [LedOp.fill Color.BLACK]

/-- Step delay self.step_delay of ChaseLedAnimation (0.1). -/
def chaseStepDelay : ℚ := 0.1

/-- The inner for loop of ChaseLedAnimation.start: for each index, set
it to the foreground color, wait step_delay, set it back to the
background color.  No stopping poll happens inside this loop. -/
def chaseSweep (n : Nat) (fg bg : Color) : List LedOp :=
  (List.range n).flatMap fun led =>
    [LedOp.setLed led fg true, LedOp.wait chaseStepDelay, LedOp.setLed led bg true]

/-- The while loop of ChaseLedAnimation.start: poll the stopping flag,
run one full sweep, then set the flag when one_shot or when the deadline
comparison fired. -/
def chaseLoop (n : Nat) (fg bg : Color) (hasDl oneShot : Bool) (env : Env) :
    Nat → Bool → Nat → Option (List LedOp)
  | 0, _, _ => none
  | fuel + 1, stopFlag, k =>
    if stopFlag || env.extStop k then some [] else
      let stopFlag1 :=
        if oneShot then true
        else if hasDl && env.timeUp k then true
        else stopFlag
      (chaseLoop n fg bg hasDl oneShot env fuel stopFlag1 (k + 1)).map
        fun rest => chaseSweep n fg bg ++ rest

/-- ChaseLedAnimation.start: clear the stopping flag, fill the
background color, run the loop, then fill BLACK. -/
def chaseTrace (n : Nat) (fg bg : Color) (timeout : Option ℚ) (oneShot : Bool)
    (env : Env) (fuel : Nat) : Option (List LedOp) :=
  (chaseLoop n fg bg (hasDeadline timeout) oneShot env fuel false 0).map
    fun tr => LedOp.fill bg :: (tr ++ [LedOp.fill Color.BLACK])

/-- Body of one RefillLedAnimation.start iteration: run the internal
fill animation with fill_color (no arguments, so one_shot defaults to
true and timeout to none), switch its color to BLACK, run it again, then
restore fill_color for the next iteration. -/
def refillBody (n : Nat) (c : Color) (rev : Bool) : List LedOp :=
  fillStartOps n c rev none true ++ fillStartOps n Color.BLACK rev none true

/-- The while loop of RefillLedAnimation.start. -/
def refillLoop (n : Nat) (c : Color) (rev : Bool) (hasDl oneShot : Bool) (env : Env) :
    Nat → Bool → Nat → Option (List LedOp)
  | 0, _, _ => none
  | fuel + 1, stopFlag, k =>
    if stopFlag || env.extStop k then some [] else
      let stopFlag1 :=
        if oneShot then true
        else if hasDl && env.timeUp k then true
        else stopFlag
      (refillLoop n c rev hasDl oneShot env fuel stopFlag1 (k + 1)).map
        fun rest => refillBody n c rev ++ rest

/-- RefillLedAnimation.start: clear the stopping flag and run the loop.
There is no LED operation outside the loop body. -/
def refillTrace (n : Nat) (c : Color) (rev : Bool) (timeout : Option ℚ)
    (oneShot : Bool) (env : Env) (fuel : Nat) : Option (List LedOp) :=
  refillLoop n c rev (hasDeadline timeout) oneShot env fuel false 0

/-- Body of one BounceLedAnimation.start iteration: run the internal
fill animation with fill_color and the current direction, toggle its
direction and switch its color to BLACK, run it again, then restore both
fields, so every iteration starts from the constructor direction. -/
def bounceBody (n : Nat) (c : Color) (rev : Bool) : List LedOp :=
  fillStartOps n c rev none true ++ fillStartOps n Color.BLACK (!rev) none true

/-- The while loop of BounceLedAnimation.start. -/
def bounceLoop (n : Nat) (c : Color) (rev : Bool) (hasDl oneShot : Bool) (env : Env) :
    Nat → Bool → Nat → Option (List LedOp)
  | 0, _, _ => none
  | fuel + 1, stopFlag, k =>
    if stopFlag || env.extStop k then some [] else
      let stopFlag1 :=
        if oneShot then true
        else if hasDl && env.timeUp k then true
        else stopFlag
      (bounceLoop n c rev hasDl oneShot env fuel stopFlag1 (k + 1)).map
        fun rest => bounceBody n c rev ++ rest

/-- BounceLedAnimation.start: clear the stopping flag and run the loop.
There is no LED operation outside the loop body. -/
def bounceTrace (n : Nat) (c : Color) (rev : Bool) (timeout : Option ℚ)
    (oneShot : Bool) (env : Env) (fuel : Nat) : Option (List LedOp) :=
  bounceLoop n c rev (hasDeadline timeout) oneShot env fuel false 0

/-- The inner for loop of BlinkLedAnimation.start: num_blinks times,
fill the blink color, wait 0.25, fill BLACK, wait 0.5. -/
def blinkBurst (c : Color) (m : Nat) : List LedOp :=
  (List.range m).flatMap fun _ =>
    [LedOp.fill c, LedOp.wait 0.25, LedOp.fill Color.BLACK, LedOp.wait 0.5]

/-- The while loop of BlinkLedAnimation.start: poll the stopping flag,
run one burst, then the one_shot / repeat / else chain (one_shot and the
non-repeating case set the flag, the repeating case waits 2 seconds),
and finally the separate deadline check. -/
def blinkLoop (c : Color) (m : Nat) (rep hasDl oneShot : Bool) (env : Env) :
    Nat → Bool → Nat → Option (List LedOp)
  | 0, _, _ => none
  | fuel + 1, stopFlag, k =>
    if stopFlag || env.extStop k then some [] else
      let body :=
        if oneShot then blinkBurst c m
        else if rep then blinkBurst c m ++ [LedOp.wait 2]
        else blinkBurst c m
      let stopFlag1 :=
        if oneShot then true
        else if rep then stopFlag
        else true
      let stopFlag2 := if hasDl && env.timeUp k then true else stopFlag1
      (blinkLoop c m rep hasDl oneShot env fuel stopFlag2 (k + 1)).map
        fun rest => body ++ rest

/-- BlinkLedAnimation.start: clear the stopping flag, fill BLACK, wait
0.5, then run the loop.  There is no LED operation after the loop. -/
def blinkTrace (c : Color) (m : Nat) (rep : Bool) (timeout : Option ℚ)
    (oneShot : Bool) (env : Env) (fuel : Nat) : Option (List LedOp) :=
  (blinkLoop c m rep (hasDeadline timeout) oneShot env fuel false 0).map
    fun tr => LedOp.fill Color.BLACK :: LedOp.wait 0.5 :: tr

/-- Delay self.delay of AlternatingLedAnimation (0.5). -/
def alternatingDelay : ℚ := 0.5

/-- One frame of AlternatingLedAnimation.start: for each index, set it
(with immediate_show false) to the color when its parity matches the
current evens flag and to BLACK otherwise. -/
def alternatingFrame (n : Nat) (c : Color) (evens : Bool) : List LedOp :=
  (List.range n).map fun led =>
    if evens && led % 2 == 0 then LedOp.setLed led c false
    else if !evens && led % 2 == 1 then LedOp.setLed led c false
    else LedOp.setLed led Color.BLACK false

/-- The while loop of AlternatingLedAnimation.start: poll the stopping
flag, write one frame, show, wait, flip the evens flag, then set the
flag when one_shot finished a full even-odd pair or the deadline
comparison fired. -/
def alternatingLoop (n : Nat) (c : Color) (hasDl oneShot : Bool) (env : Env) :
    Nat → Bool → Bool → Nat → Option (List LedOp)
  | 0, _, _, _ => none
  | fuel + 1, evens, stopFlag, k =>
    if stopFlag || env.extStop k then some [] else
      let evens1 := !evens
      let stopFlag1 :=
        if oneShot && evens1 then true
        else if hasDl && env.timeUp k then true
        else stopFlag
      (alternatingLoop n c hasDl oneShot env fuel evens1 stopFlag1 (k + 1)).map
        fun rest =>
          (alternatingFrame n c evens ++ [LedOp.showLeds, LedOp.wait alternatingDelay]) ++ rest

/-- AlternatingLedAnimation.start: set evens, fill BLACK, clear the
stopping flag, run the loop, then fill BLACK again. -/
def alternatingTrace (n : Nat) (c : Color) (timeout : Option ℚ) (oneShot : Bool)
    (env : Env) (fuel : Nat) : Option (List LedOp) :=
  (alternatingLoop n c (hasDeadline timeout) oneShot env fuel true false 0).map
    fun tr => LedOp.fill Color.BLACK :: (tr ++ [LedOp.fill Color.BLACK])

/-- Concrete non-black color used by counterexamples and witnesses. -/
def whiteC : Color := ⟨1, 1, 1⟩

/-- Evaluating a trace one operation at a time. -/
theorem applyOps_cons (leds : List Color) (op : LedOp) (ops : List LedOp) :
    applyOps leds (op :: ops) = applyOps (applyOp leds op) ops := rfl

/-- Evaluating a concatenated trace. -/
theorem applyOps_append (leds : List Color) (a b : List LedOp) :
    applyOps leds (a ++ b) = applyOps (applyOps leds a) b := by
  simp [applyOps, List.foldl_append]

/-- No operation changes the number of LEDs. -/
theorem length_applyOp (leds : List Color) (op : LedOp) :
    (applyOp leds op).length = leds.length := by
  cases op <;> simp [applyOp]

/-- No trace changes the number of LEDs. -/
theorem length_applyOps (ops : List LedOp) :
    ∀ leds : List Color, (applyOps leds ops).length = leds.length := by
  induction ops with
  | nil => intro _; rfl
  | cons op rest ih =>
      intro leds
      rw [applyOps_cons, ih, length_applyOp]

/-- A trace whose final operation is a fill leaves every LED at the fill
color. -/
theorem applyOps_fill_last (leds : List Color) (tr : List LedOp) (c : Color) :
    applyOps leds (tr ++ [LedOp.fill c]) = List.replicate leds.length c := by
  rw [applyOps_append]
  show List.replicate (applyOps leds tr).length c = List.replicate leds.length c
  rw [length_applyOps]

/-- Pointwise description of writing one color at a list of indices. -/
theorem getElem?_foldl_set (c : Color) :
    ∀ (idxs : List Nat) (leds : List Color) (j : Nat),
      (idxs.foldl (fun l i => l.set i c) leds)[j]? =
        if j ∈ idxs ∧ j < leds.length then some c else leds[j]? := by
  intro idxs
  induction idxs with
  | nil => intro leds j; simp
  | cons i rest ih =>
      intro leds j
      rw [List.foldl_cons, ih]
      simp only [List.length_set, List.getElem?_set, List.mem_cons]
      split_ifs <;> simp_all

/-- A fill pass evaluates to folding set over its index list. -/
theorem applyOps_setPass (c : Color) (w : ℚ) :
    ∀ (idxs : List Nat) (leds : List Color),
      applyOps leds (idxs.flatMap fun led => [LedOp.setLed led c true, LedOp.wait w]) =
        idxs.foldl (fun l i => l.set i c) leds := by
  intro idxs
  induction idxs with
  | nil => intro _; rfl
  | cons i rest ih =>
      intro leds
      rw [List.flatMap_cons, applyOps_append, ih]
      rfl

/-- The fill pass visits exactly the indices below num_leds. -/
theorem mem_fillIdxs (n : Nat) (rev : Bool) (j : Nat) : j ∈ fillIdxs n rev ↔ j < n := by
  cases rev <;> simp [fillIdxs, List.mem_range]

/-- After one fill pass over a buffer of the right length, every LED
holds the pass color. -/
theorem applyOps_fillPass (n : Nat) (c : Color) (rev : Bool) (leds : List Color)
    (h : leds.length = n) :
    applyOps leds (fillPassOps n c rev) = List.replicate n c := by
  apply List.ext_getElem?
  intro j
  rw [fillPassOps, applyOps_setPass, getElem?_foldl_set, List.getElem?_replicate]
  by_cases hj : j < n
  · simp [mem_fillIdxs, h, hj]
  · simp [mem_fillIdxs, h, hj, List.getElem?_eq_none (by omega : leds.length ≤ j)]

/-- The warning prefix of Fill.start does not touch the LEDs. -/
theorem applyOps_warnPrefix (leds : List Color) (w : Bool) :
    applyOps leds (if w then [LedOp.warn] else []) = leds := by
  cases w <;> rfl

/-- Fill.start leaves every LED at fill_color. -/
theorem applyOps_fillStartOps (n : Nat) (c : Color) (rev : Bool)
    (timeout : Option ℚ) (oneShot : Bool) (leds : List Color) (h : leds.length = n) :
    applyOps leds (fillStartOps n c rev timeout oneShot) = List.replicate n c := by
  rw [fillStartOps, applyOps_append, applyOps_warnPrefix, applyOps_fillPass n c rev leds h]

/-- One on-off pair of the blink burst leaves every LED black. -/
theorem applyOps_blinkPair (c : Color) (leds : List Color) :
    applyOps leds [LedOp.fill c, LedOp.wait 0.25, LedOp.fill Color.BLACK, LedOp.wait 0.5] =
      List.replicate leds.length Color.BLACK := by
  simp [applyOps, applyOp]

/-- A blink burst grows by one on-off pair at the end. -/
theorem blinkBurst_succ (c : Color) (m : Nat) :
    blinkBurst c (m + 1) = blinkBurst c m ++
      [LedOp.fill c, LedOp.wait 0.25, LedOp.fill Color.BLACK, LedOp.wait 0.5] := by
  rw [blinkBurst, blinkBurst, List.range_succ, List.flatMap_append]
  rfl

/-- A nonempty blink burst leaves every LED black. -/
theorem applyOps_blinkBurst_succ (c : Color) (m : Nat) (leds : List Color) :
    applyOps leds (blinkBurst c (m + 1)) = List.replicate leds.length Color.BLACK := by
  rw [blinkBurst_succ, applyOps_append, applyOps_blinkPair, length_applyOps]

/-- A blink burst keeps an all-black buffer all black. -/
theorem applyOps_blinkBurst_black (c : Color) (m : Nat) (L : Nat) :
    applyOps (List.replicate L Color.BLACK) (blinkBurst c m) =
      List.replicate L Color.BLACK := by
  cases m with
  | zero => rfl
  | succ m => rw [applyOps_blinkBurst_succ, List.length_replicate]

/-- One chase sweep contains one wait per visited index. -/
theorem countWait_sweepIdxs (fg bg : Color) :
    ∀ idxs : List Nat,
      ((idxs.flatMap fun led =>
          [LedOp.setLed led fg true, LedOp.wait chaseStepDelay,
           LedOp.setLed led bg true]).countP isWaitB) = idxs.length := by
  intro idxs
  induction idxs with
  | nil => rfl
  | cons i rest ih =>
      simp [List.flatMap_cons, List.countP_append, List.countP_cons, isWaitB, ih]

/-- One chase sweep over n LEDs contains exactly n waits. -/
theorem countWait_chaseSweep (n : Nat) (fg bg : Color) :
    (chaseSweep n fg bg).countP isWaitB = n := by
  rw [chaseSweep, countWait_sweepIdxs, List.length_range]

/-- Dropping the first three operations of a sweep (the first set_led,
the first wait and the restore of index 0) leaves n - 1 waits. -/
theorem countWait_chaseSweep_drop (n : Nat) (fg bg : Color) :
    ((chaseSweep n fg bg).drop 3).countP isWaitB = n - 1 := by
  cases n with
  | zero => rfl
  | succ m =>
      rw [chaseSweep, List.range_succ_eq_map, List.flatMap_cons]
      simp only [List.cons_append, List.nil_append, List.drop_succ_cons, List.drop_zero]
      rw [countWait_sweepIdxs, List.length_map, List.length_range]
      omega

/-- The fill pass writes exactly its index list, in order. -/
theorem setIndices_fillPass (n : Nat) (c : Color) (rev : Bool) :
    setIndices (fillPassOps n c rev) = fillIdxs n rev := by
  rw [fillPassOps]
  generalize fillIdxs n rev = idxs
  induction idxs with
  | nil => rfl
  | cons i rest ih =>
      simp only [List.flatMap_cons, setIndices, List.filterMap_append] at *
      rw [ih]
      rfl

/-- Counting the set_led operations of a pass over any index list. -/
theorem countSet_passIdxs (c : Color) :
    ∀ idxs : List Nat,
      ((idxs.flatMap fun led => [LedOp.setLed led c true, LedOp.wait 0.05]).countP
        isSetLedB) = idxs.length := by
  intro idxs
  induction idxs with
  | nil => rfl
  | cons i rest ih =>
      simp [List.flatMap_cons, List.countP_append, List.countP_cons, isSetLedB, ih]

/-- The fill pass contains one set_led per visited index. -/
theorem countSet_fillPass (n : Nat) (c : Color) (rev : Bool) :
    (fillPassOps n c rev).countP isSetLedB = n := by
  rw [fillPassOps, countSet_passIdxs]
  cases rev <;> simp [fillIdxs]

/-- Removing the warning from Fill.start gives exactly the fill pass,
whatever one_shot and timeout were. -/
theorem filter_fillStartOps (n : Nat) (c : Color) (rev : Bool)
    (timeout : Option ℚ) (oneShot : Bool) :
    (fillStartOps n c rev timeout oneShot).filter (fun op => !(isWarnB op)) =
      fillPassOps n c rev := by
  rw [fillStartOps, List.filter_append]
  have h1 : (if !oneShot || timeout.isSome then [LedOp.warn] else []).filter
      (fun op => !(isWarnB op)) = [] := by
    split <;> rfl
  have h2 : (fillPassOps n c rev).filter (fun op => !(isWarnB op)) = fillPassOps n c rev := by
    apply List.filter_eq_self.mpr
    intro a ha
    rw [fillPassOps, List.mem_flatMap] at ha
    obtain ⟨i, _, ha⟩ := ha
    simp only [List.mem_cons, List.mem_singleton, List.not_mem_nil, or_false] at ha
    rcases ha with rfl | rfl <;> rfl
  rw [h1, h2, List.nil_append]

/-- Fill.start emits its warning exactly when one_shot is false or a
timeout was supplied. -/
theorem warn_mem_fillStartOps (n : Nat) (c : Color) (rev : Bool)
    (timeout : Option ℚ) (oneShot : Bool) :
    LedOp.warn ∈ fillStartOps n c rev timeout oneShot ↔
      (oneShot = false ∨ timeout.isSome = true) := by
  have hpass : LedOp.warn ∉ fillPassOps n c rev := by
    intro ha
    rw [fillPassOps, List.mem_flatMap] at ha
    obtain ⟨i, _, ha⟩ := ha
    simp at ha
  rw [fillStartOps, List.mem_append]
  constructor
  · rintro (h | h)
    · by_cases hc : (!oneShot || timeout.isSome) = true
      · rcases Bool.or_eq_true_iff.mp hc with h1 | h1
        · exact Or.inl (Bool.not_eq_true' .. ▸ h1)
        · exact Or.inr h1
      · rw [if_neg hc] at h
        simp at h
    · exact absurd h hpass
  · intro h
    left
    have : (!oneShot || timeout.isSome) = true := by
      rcases h with h | h
      · subst h; rfl
      · rw [h, Bool.or_true]
    rw [if_pos this]
    exact List.mem_singleton.mpr rfl

/-- Lit indices of one alternating frame: exactly the indices whose
parity matches the phase, provided the animation color is not black. -/
theorem litIndices_alternatingFrame (n : Nat) (c : Color) (h : c ≠ Color.BLACK) (ev : Bool) :
    litIndices (alternatingFrame n c ev) =
      (List.range n).filter fun led => led % 2 == (if ev then 0 else 1) := by
  rw [alternatingFrame]
  generalize List.range n = idxs
  induction idxs with
  | nil => rfl
  | cons i rest ih =>
      cases ev <;> rcases Nat.mod_two_eq_zero_or_one i with hi | hi <;>
        simp_all [List.map_cons, litIndices, List.filterMap_cons, List.filter_cons]

/-- Every alternating frame writes every index exactly once, in
order. -/
theorem setIndices_alternatingFrame (n : Nat) (c : Color) (ev : Bool) :
    setIndices (alternatingFrame n c ev) = List.range n := by
  rw [alternatingFrame]
  generalize List.range n = idxs
  induction idxs with
  | nil => rfl
  | cons i rest ih =>
      simp only [List.map_cons, setIndices, List.filterMap_cons] at *
      rw [show (if ev && i % 2 == 0 then LedOp.setLed i c false
            else if !ev && i % 2 == 1 then LedOp.setLed i c false
            else LedOp.setLed i Color.BLACK false) =
          LedOp.setLed i (if ev && i % 2 == 0 then c
            else if !ev && i % 2 == 1 then c else Color.BLACK) false from by
        split_ifs <;> rfl]
      rw [ih]

/-- Boolean check that a rational list is strictly ascending. -/
def ascends : List ℚ → Bool
  | [] => true
  | [_] => true
  | a :: b :: t => decide (a < b) && ascends (b :: t)

/-- Boolean check that a rational list is strictly descending. -/
def descends : List ℚ → Bool
  | [] => true
  | [_] => true
  | a :: b :: t => decide (b < a) && descends (b :: t)

/-- Whatever exit the blink loop takes, its trace keeps an all-black
buffer all black: every burst ends with a black fill and the repeat
pause does not touch the LEDs. -/
theorem blinkLoop_black (c : Color) (m : Nat) (rep hasDl oneShot : Bool)
    (env : Env) (L : Nat) :
    ∀ (fuel : Nat) (stopFlag : Bool) (k : Nat) (tr : List LedOp),
      blinkLoop c m rep hasDl oneShot env fuel stopFlag k = some tr →
      applyOps (List.replicate L Color.BLACK) tr = List.replicate L Color.BLACK := by
  intro fuel
  induction fuel with
  | zero =>
      intro stopFlag k tr h
      simp [blinkLoop] at h
  | succ fuel ih =>
      intro stopFlag k tr h
      simp only [blinkLoop] at h
      split at h
      · injection h with h
        subst h
        rfl
      · rcases Option.map_eq_some'.mp h with ⟨rest, hrest, rfl⟩
        rw [applyOps_append]
        have hbody : applyOps (List.replicate L Color.BLACK)
            (if oneShot then blinkBurst c m
             else if rep then blinkBurst c m ++ [LedOp.wait 2]
             else blinkBurst c m) = List.replicate L Color.BLACK := by
          split_ifs
          · exact applyOps_blinkBurst_black c m L
          · rw [applyOps_append, applyOps_blinkBurst_black]
            rfl
          · exact applyOps_blinkBurst_black c m L
        rw [hbody]
        exact ih _ _ _ hrest

/-- A nonempty exit of the refill loop leaves every LED black: each
iteration ends with a complete black fill pass. -/
theorem refillLoop_black (n : Nat) (c : Color) (rev : Bool) (hasDl oneShot : Bool)
    (env : Env) :
    ∀ (fuel : Nat) (stopFlag : Bool) (k : Nat) (tr : List LedOp) (leds : List Color),
      refillLoop n c rev hasDl oneShot env fuel stopFlag k = some tr →
      tr ≠ [] → leds.length = n →
      applyOps leds tr = List.replicate n Color.BLACK := by
  intro fuel
  induction fuel with
  | zero =>
      intro stopFlag k tr leds h
      simp [refillLoop] at h
  | succ fuel ih =>
      intro stopFlag k tr leds h hne hlen
      simp only [refillLoop] at h
      split at h
      · injection h with h
        exact absurd h.symm hne
      · rcases Option.map_eq_some'.mp h with ⟨rest, hrest, rfl⟩
        have hbody : applyOps leds (refillBody n c rev) = List.replicate n Color.BLACK := by
          rw [refillBody, applyOps_append,
            applyOps_fillStartOps n c rev none true leds hlen,
            applyOps_fillStartOps n Color.BLACK rev none true _ (List.length_replicate ..)]
        rw [applyOps_append, hbody]
        by_cases hrest0 : rest = []
        · subst hrest0
          rfl
        · exact ih _ _ _ _ hrest hrest0 (List.length_replicate ..)

/-- A nonempty exit of the bounce loop leaves every LED black: each
iteration ends with a complete reversed black fill pass. -/
theorem bounceLoop_black (n : Nat) (c : Color) (rev : Bool) (hasDl oneShot : Bool)
    (env : Env) :
    ∀ (fuel : Nat) (stopFlag : Bool) (k : Nat) (tr : List LedOp) (leds : List Color),
      bounceLoop n c rev hasDl oneShot env fuel stopFlag k = some tr →
      tr ≠ [] → leds.length = n →
      applyOps leds tr = List.replicate n Color.BLACK := by
  intro fuel
  induction fuel with
  | zero =>
      intro stopFlag k tr leds h
      simp [bounceLoop] at h
  | succ fuel ih =>
      intro stopFlag k tr leds h hne hlen
      simp only [bounceLoop] at h
      split at h
      · injection h with h
        exact absurd h.symm hne
      · rcases Option.map_eq_some'.mp h with ⟨rest, hrest, rfl⟩
        have hbody : applyOps leds (bounceBody n c rev) = List.replicate n Color.BLACK := by
          rw [bounceBody, applyOps_append,
            applyOps_fillStartOps n c rev none true leds hlen,
            applyOps_fillStartOps n Color.BLACK (!rev) none true _ (List.length_replicate ..)]
        rw [applyOps_append, hbody]
        by_cases hrest0 : rest = []
        · subst hrest0
          rfl
        · exact ih _ _ _ _ hrest hrest0 (List.length_replicate ..)

/-- Every completed breathe run ends with the trailing black fill. -/
theorem breatheTrace_black (color : Color) (timeout : Option ℚ) (oneShot : Bool)
    (env : Env) (fuel : Nat) (leds : List Color) (tr : List LedOp)
    (h : breatheTrace color timeout oneShot env fuel = some tr) :
    applyOps leds tr = List.replicate leds.length Color.BLACK := by
  rcases Option.map_eq_some'.mp h with ⟨bs, _, rfl⟩
  exact applyOps_fill_last leds _ Color.BLACK

/-- Every completed chase run ends with the trailing black fill. -/
theorem chaseTrace_black (n : Nat) (fg bg : Color) (timeout : Option ℚ)
    (oneShot : Bool) (env : Env) (fuel : Nat) (leds : List Color) (tr : List LedOp)
    (h : chaseTrace n fg bg timeout oneShot env fuel = some tr) :
    applyOps leds tr = List.replicate leds.length Color.BLACK := by
  rcases Option.map_eq_some'.mp h with ⟨t, _, rfl⟩
  show applyOps leds ((LedOp.fill bg :: t) ++ [LedOp.fill Color.BLACK]) = _
  exact applyOps_fill_last leds _ Color.BLACK

/-- Every completed blink run leaves the LEDs black: the pre-loop black
fill makes the buffer black and the loop keeps it black. -/
theorem blinkTrace_black (c : Color) (m : Nat) (rep : Bool) (timeout : Option ℚ)
    (oneShot : Bool) (env : Env) (fuel : Nat) (leds : List Color) (tr : List LedOp)
    (h : blinkTrace c m rep timeout oneShot env fuel = some tr) :
    applyOps leds tr = List.replicate leds.length Color.BLACK := by
  rcases Option.map_eq_some'.mp h with ⟨t, ht, rfl⟩
  show applyOps (List.replicate leds.length Color.BLACK) t = _
  exact blinkLoop_black c m rep (hasDeadline timeout) oneShot env leds.length fuel false 0 t ht

/-- Every completed alternating run ends with the trailing black
fill. -/
theorem alternatingTrace_black (n : Nat) (c : Color) (timeout : Option ℚ)
    (oneShot : Bool) (env : Env) (fuel : Nat) (leds : List Color) (tr : List LedOp)
    (h : alternatingTrace n c timeout oneShot env fuel = some tr) :
    applyOps leds tr = List.replicate leds.length Color.BLACK := by
  rcases Option.map_eq_some'.mp h with ⟨t, _, rfl⟩
  show applyOps leds ((LedOp.fill Color.BLACK :: t) ++ [LedOp.fill Color.BLACK]) = _
  exact applyOps_fill_last leds _ Color.BLACK

/-- The buffer is entirely black after running a trace from this
buffer. -/
def AllBlackAfter (leds : List Color) (tr : List LedOp) : Prop :=
  applyOps leds tr = List.replicate leds.length Color.BLACK

/-- Claim C1, counterexample.  In the run chaseTrace 4 whiteC BLACK ...
envStopAt1, stop() is raised while the first wait of the first sweep is
in progress (that is, after the first three operations: the background
fill, set_led 0 foreground, and the wait that has begun); the stop is
first readable at the poll with index 1.  The claim allows at most one
further wait-step before start returns, but the remainder of the sweep
still performs three full wait-steps (for indices 1, 2 and 3) with
their LED mutations, because the inner for loop never polls the
stopping event. -/
theorem c1_counterexample :
    (chaseTrace 4 whiteC Color.BLACK none false envStopAt1 2).isSome = true ∧
    (((chaseTrace 4 whiteC Color.BLACK none false envStopAt1 2).getD []).drop 3).countP
      isWaitB = 3 ∧
    ¬ (3 ≤ 1) :=
  ⟨rfl, rfl, by decide⟩

/-- Claim C1 as amended: a stop() raised during an in-progress Chase
sweep is observed only at the while-loop poll after the sweep finishes.
Start returns after completing the current sweep and the final off
fill, so up to num_leds - 1 further wait-steps (each with its LED
mutations) elapse after the stop, not at most one: the run with the
stop raised during the first sweep still contains the whole sweep with
its n wait-steps, of which n - 1 lie after the first (in-progress)
wait. -/
theorem c1_amended (n : Nat) (fg bg : Color) :
    chaseTrace n fg bg none false envStopAt1 2 =
      some (LedOp.fill bg :: (chaseSweep n fg bg ++ [LedOp.fill Color.BLACK])) ∧
    (chaseSweep n fg bg).countP isWaitB = n ∧
    ((chaseSweep n fg bg).drop 3).countP isWaitB = n - 1 := by
  refine ⟨?_, countWait_chaseSweep n fg bg, countWait_chaseSweep_drop n fg bg⟩
  have hloop : chaseLoop n fg bg (hasDeadline none) false envStopAt1 2 false 0 =
      some (chaseSweep n fg bg ++ []) := rfl
  rw [chaseTrace, hloop]
  simp

/-- Claim C2 (code bug).  stop() sets the stopping event, but the wait
primitive blocks on the separate _delay event, which no statement of
the source ever sets; hence a wait issued after stop() still blocks for
the full requested duration instead of returning immediately. -/
theorem c2_wait_ignores_stop :
    (∀ (s : AnimSignals) (t : ℚ), waitDuration (stopSignal s) t = waitDuration s t) ∧
    waitDuration (stopSignal initSignals) breatheStepDelay = breatheStepDelay ∧
    (stopSignal initSignals).stoppingSet = true ∧
    (stopSignal initSignals).delaySet = false :=
  ⟨fun _ _ => rfl, rfl, rfl, rfl⟩

/-- Claim C3, counterexample.  In the run refillTrace 4 whiteC ...
envStopAt1, stop() on the composite is raised while the first internal
Fill pass is running (readable from poll 1 on), yet the trace contains
the complete iteration: all 4 set_led steps of the in-progress color
pass and all 4 of the following black pass, 8 in total.  The
in-progress Fill pass does not terminate early. -/
theorem c3_counterexample :
    refillTrace 4 whiteC false none false envStopAt1 2 = some (refillBody 4 whiteC false) ∧
    (fillStartOps 4 whiteC false none true).countP isSetLedB = 4 ∧
    (refillBody 4 whiteC false).countP isSetLedB = 8 :=
  ⟨rfl, rfl, rfl⟩

/-- Claim C3 as amended: a stop() on the composite Refill or Bounce is
observed only at the composite while-loop poll between iterations; both
internal Fill passes of the current iteration complete all of their
per-LED steps.  Fill.stop() is a no-op (pass), and the stop() of the
composite only sets the composite stopping event, which no Fill code
reads: no cancellation signal is shared with or forwarded to the active
sub-instance. -/
theorem c3_amended (n : Nat) (c : Color) (rev : Bool) :
    refillTrace n c rev none false envStopAt1 2 = some (refillBody n c rev) ∧
    bounceTrace n c rev none false envStopAt1 2 = some (bounceBody n c rev) ∧
    (∀ s : AnimSignals, fillStopSignal s = s) ∧
    (fillStartOps n c rev none true).countP isSetLedB = n := by
  refine ⟨?_, ?_, fun _ => rfl, ?_⟩
  · have hloop : refillLoop n c rev (hasDeadline none) false envStopAt1 2 false 0 =
        some (refillBody n c rev ++ []) := rfl
    rw [refillTrace, hloop, List.append_nil]
  · have hloop : bounceLoop n c rev (hasDeadline none) false envStopAt1 2 false 0 =
        some (bounceBody n c rev ++ []) := rfl
    rw [bounceTrace, hloop, List.append_nil]
  · rw [fillStartOps]
    show ([] ++ fillPassOps n c rev).countP isSetLedB = n
    rw [List.nil_append, countSet_fillPass]

unseal Rat.add Rat.mul Rat.inv Rat.sub Rat.ofScientific in
/-- Claim C4, counterexample.  When stop() lands between
stopping.clear() and the very first stopping.is_set() poll of
Refill.start, the run returns without issuing a single LED operation,
so a previously lit LED stays lit: not every LED equals BLACK when
start returns. -/
theorem c4_counterexample :
    refillTrace 1 whiteC false none false envStopAlways 1 = some [] ∧
    applyOps [whiteC] [] = [whiteC] ∧
    whiteC ≠ Color.BLACK := by
  refine ⟨rfl, rfl, ?_⟩
  decide

/-- Claim C4 as amended: for Breathe, Chase, Blink and Alternating,
every LED is BLACK whenever start() returns, on every return path (stop
observed, deadline fired, one-shot completion).  For Refill and Bounce
the same holds for every return whose run performed at least one loop
iteration (nonempty trace); a stop observed at the very first poll
returns with the LEDs untouched. -/
theorem c4_off_after_return (n : Nat) (leds : List Color) (h : leds.length = n) :
    (∀ color timeout oneShot env fuel tr,
      breatheTrace color timeout oneShot env fuel = some tr → AllBlackAfter leds tr) ∧
    (∀ fg bg timeout oneShot env fuel tr,
      chaseTrace n fg bg timeout oneShot env fuel = some tr → AllBlackAfter leds tr) ∧
    (∀ c m rep timeout oneShot env fuel tr,
      blinkTrace c m rep timeout oneShot env fuel = some tr → AllBlackAfter leds tr) ∧
    (∀ c timeout oneShot env fuel tr,
      alternatingTrace n c timeout oneShot env fuel = some tr → AllBlackAfter leds tr) ∧
    (∀ c rev timeout oneShot env fuel tr,
      refillTrace n c rev timeout oneShot env fuel = some tr → tr ≠ [] →
        AllBlackAfter leds tr) ∧
    (∀ c rev timeout oneShot env fuel tr,
      bounceTrace n c rev timeout oneShot env fuel = some tr → tr ≠ [] →
        AllBlackAfter leds tr) := by
  refine ⟨?_, ?_, ?_, ?_, ?_, ?_⟩
  · intro color timeout oneShot env fuel tr htr
    exact breatheTrace_black color timeout oneShot env fuel leds tr htr
  · intro fg bg timeout oneShot env fuel tr htr
    exact chaseTrace_black n fg bg timeout oneShot env fuel leds tr htr
  · intro c m rep timeout oneShot env fuel tr htr
    exact blinkTrace_black c m rep timeout oneShot env fuel leds tr htr
  · intro c timeout oneShot env fuel tr htr
    exact alternatingTrace_black n c timeout oneShot env fuel leds tr htr
  · intro c rev timeout oneShot env fuel tr htr hne
    have := refillLoop_black n c rev (hasDeadline timeout) oneShot env fuel false 0
      tr leds htr hne h
    rw [AllBlackAfter, this, h]
  · intro c rev timeout oneShot env fuel tr htr hne
    have := bounceLoop_black n c rev (hasDeadline timeout) oneShot env fuel false 0
      tr leds htr hne h
    rw [AllBlackAfter, this, h]

/-- Witness for c4_off_after_return at a one-LED device: a breathe run
stopped at the first poll still ends with the trailing black fill. -/
theorem c4_off_after_return_witness :
    ([whiteC].length = 1) ∧ AllBlackAfter [whiteC] [LedOp.fill Color.BLACK] :=
  ⟨rfl, (c4_off_after_return 1 [whiteC] rfl).1 whiteC none false envStopAlways 1
    [LedOp.fill Color.BLACK] rfl⟩

/-- The behavior claimed for Fill.start: the warning is emitted exactly
for a non-default parameter combination; stripping it leaves the very
same single pass whatever one_shot and timeout were; the pass writes
exactly the index list (range, reversed when requested), one set_led
per LED; and the final buffer holds fill_color everywhere, with no off
restoration. -/
def FillSpec (n : Nat) (c : Color) (rev : Bool) (timeout : Option ℚ)
    (oneShot : Bool) (leds : List Color) : Prop :=
  (LedOp.warn ∈ fillStartOps n c rev timeout oneShot ↔
    (oneShot = false ∨ timeout.isSome = true)) ∧
  (fillStartOps n c rev timeout oneShot).filter (fun op => !(isWarnB op)) =
    fillPassOps n c rev ∧
  setIndices (fillPassOps n c rev) = fillIdxs n rev ∧
  (fillPassOps n c rev).countP isSetLedB = n ∧
  applyOps leds (fillStartOps n c rev timeout oneShot) = List.replicate n c

/-- Claim C5: Fill.start performs exactly one pass over the LEDs in
index order (reversed when reverse is set), warns (but does not change
the pass) when one_shot is false or a timeout was supplied, and leaves
every LED at fill_color. -/
theorem c5_fill_single_pass (n : Nat) (c : Color) (rev : Bool) (timeout : Option ℚ)
    (oneShot : Bool) (leds : List Color) (h : leds.length = n) :
    FillSpec n c rev timeout oneShot leds :=
  ⟨warn_mem_fillStartOps n c rev timeout oneShot,
   filter_fillStartOps n c rev timeout oneShot,
   setIndices_fillPass n c rev,
   countSet_fillPass n c rev,
   applyOps_fillStartOps n c rev timeout oneShot leds h⟩

/-- Witness for c5_fill_single_pass on two LEDs with the non-default
combination one_shot false and a timeout, which triggers the
warning. -/
theorem c5_fill_single_pass_witness :
    ([Color.BLACK, Color.BLACK].length = 2) ∧
    FillSpec 2 whiteC false (some 1) false [Color.BLACK, Color.BLACK] :=
  ⟨rfl, c5_fill_single_pass 2 whiteC false (some 1) false [Color.BLACK, Color.BLACK] rfl⟩

/-- Claim C6: the one-shot chase on 4 LEDs issues the background fill,
then exactly 4 foreground/background set_led pairs in index order
0,1,2,3 (one wait inside each pair), then the full off fill, and
nothing else. -/
theorem c6_chase_one_shot (fg bg : Color) :
    chaseTrace 4 fg bg none true qEnv 2 =
      some [LedOp.fill bg,
        LedOp.setLed 0 fg true, LedOp.wait chaseStepDelay, LedOp.setLed 0 bg true,
        LedOp.setLed 1 fg true, LedOp.wait chaseStepDelay, LedOp.setLed 1 bg true,
        LedOp.setLed 2 fg true, LedOp.wait chaseStepDelay, LedOp.setLed 2 bg true,
        LedOp.setLed 3 fg true, LedOp.wait chaseStepDelay, LedOp.setLed 3 bg true,
        LedOp.fill Color.BLACK] ∧
    setIndices (chaseSweep 4 fg bg) = [0, 0, 1, 1, 2, 2, 3, 3] ∧
    (chaseSweep 4 fg bg).countP isWaitB = 4 :=
  ⟨rfl, rfl, rfl⟩

/-- Brightness values of the ascending phase of a one-shot breathe:
0.05, 0.10, ..., 1. -/
def breatheUp : List ℚ := (List.range 20).map fun i => ((i : ℚ) + 1) / 20

/-- Brightness values of the descending phase of a one-shot breathe:
0.95, 0.90, ..., 0. -/
def breatheDown : List ℚ := (List.range 20).map fun i => ((19 : ℚ) - (i : ℚ)) / 20

unseal Rat.add Rat.mul Rat.inv Rat.sub Rat.ofScientific in
/-- Claim C7: the one-shot breathe run terminates; its brightness
sequence is the strictly ascending list reaching exactly 1 (every
earlier value below 1) followed by the strictly descending list
reaching exactly 0 (every earlier value above 0), stopping the first
time brightness returns to 0 after having reached 1; and the rendered
trace fills each frame with the base color scaled by the current
brightness, ending with the off fill. -/
theorem c7_breathe_one_shot :
    (breatheLoopB (hasDeadline none) true qEnv 41 0 breatheStep false false 0 =
      some (breatheUp ++ breatheDown)) ∧
    ascends breatheUp = true ∧
    descends breatheDown = true ∧
    breatheUp.getLast? = some 1 ∧
    breatheDown.getLast? = some 0 ∧
    (∀ x ∈ breatheUp.dropLast, x < 1) ∧
    (∀ x ∈ breatheDown.dropLast, 0 < x) ∧
    (∀ color, breatheTrace color none true qEnv 41 =
      some (((breatheUp ++ breatheDown).flatMap (breatheFrame color)) ++
        [LedOp.fill Color.BLACK])) := by
  have h1 : breatheLoopB (hasDeadline none) true qEnv 41 0 breatheStep false false 0 =
      some (breatheUp ++ breatheDown) := by decide
  refine ⟨h1, by decide, by decide, by decide, by decide, by decide, by decide, ?_⟩
  intro color
  rw [breatheTrace, h1]
  rfl

unseal Rat.add Rat.mul Rat.inv Rat.sub Rat.ofScientific in
/-- Claim C8: blink with num_blinks 3, repeat false, one_shot false
performs, after the initial black fill and pre-delay, exactly 3 on/off
fill pairs and stops; the punch list of fills is
black, c, black, c, black, c, black; the waits are only the pre-delay
and the per-pair 0.25/0.5 delays, never the 2-second inter-cycle pause;
and the last fill issued is the off color. -/
theorem c8_blink_three (c : Color) :
    blinkTrace c 3 false none false qEnv 2 =
      some [LedOp.fill Color.BLACK, LedOp.wait 0.5,
        LedOp.fill c, LedOp.wait 0.25, LedOp.fill Color.BLACK, LedOp.wait 0.5,
        LedOp.fill c, LedOp.wait 0.25, LedOp.fill Color.BLACK, LedOp.wait 0.5,
        LedOp.fill c, LedOp.wait 0.25, LedOp.fill Color.BLACK, LedOp.wait 0.5] ∧
    fillsOf (LedOp.fill Color.BLACK :: LedOp.wait 0.5 :: blinkBurst c 3) =
      [Color.BLACK, c, Color.BLACK, c, Color.BLACK, c, Color.BLACK] ∧
    waitsOf (LedOp.fill Color.BLACK :: LedOp.wait 0.5 :: blinkBurst c 3) =
      [0.5, 0.25, 0.5, 0.25, 0.5, 0.25, 0.5] ∧
    (2 : ℚ) ∉ waitsOf (LedOp.fill Color.BLACK :: LedOp.wait 0.5 :: blinkBurst c 3) ∧
    (fillsOf (LedOp.fill Color.BLACK :: LedOp.wait 0.5 :: blinkBurst c 3)).getLast? =
      some Color.BLACK := by
  refine ⟨rfl, rfl, rfl, ?_, rfl⟩
  show (2 : ℚ) ∉ [(0.5 : ℚ), 0.25, 0.5, 0.25, 0.5, 0.25, 0.5]
  decide

/-- The behavior claimed for the alternating pattern: the one-shot run
is the initial black fill, one even frame flushed by a single show, the
wait, one odd frame flushed by a single show, the wait, and the final
black fill; each frame writes every index exactly once; the lit indices
of the even frame are exactly the even indices and those of the odd
frame exactly the odd ones; and every index is lit in exactly one of
the two phases. -/
def AlternatingSpec (n : Nat) (c : Color) : Prop :=
  (alternatingTrace n c none true qEnv 3 =
    some (LedOp.fill Color.BLACK ::
      ((alternatingFrame n c true ++ [LedOp.showLeds, LedOp.wait alternatingDelay]) ++
       ((alternatingFrame n c false ++ [LedOp.showLeds, LedOp.wait alternatingDelay]) ++
        [LedOp.fill Color.BLACK])))) ∧
  setIndices (alternatingFrame n c true) = List.range n ∧
  setIndices (alternatingFrame n c false) = List.range n ∧
  litIndices (alternatingFrame n c true) =
    (List.range n).filter (fun led => led % 2 == 0) ∧
  litIndices (alternatingFrame n c false) =
    (List.range n).filter (fun led => led % 2 == 1) ∧
  ∀ i ∈ List.range n,
    (i ∈ litIndices (alternatingFrame n c true) ↔
      ¬ i ∈ litIndices (alternatingFrame n c false))

/-- Claim C9: for every num_leds, each alternating frame sets every LED
exactly once before a single show, lighting exactly the even indices in
the even phase and exactly the odd indices in the odd phase, so each
index is lit in exactly one phase; the one-shot run is exactly one even
frame followed by one odd frame. -/
theorem c9_alternating (n : Nat) (c : Color) (h : c ≠ Color.BLACK) :
    AlternatingSpec n c := by
  refine ⟨?_, setIndices_alternatingFrame n c true, setIndices_alternatingFrame n c false,
    litIndices_alternatingFrame n c h true, litIndices_alternatingFrame n c h false, ?_⟩
  · have hloop : alternatingLoop n c (hasDeadline none) true qEnv 3 true false 0 =
        some ((alternatingFrame n c true ++ [LedOp.showLeds, LedOp.wait alternatingDelay]) ++
          ((alternatingFrame n c false ++ [LedOp.showLeds, LedOp.wait alternatingDelay]) ++
            [])) := rfl
    rw [alternatingTrace, hloop]
    simp
  · intro i hi
    rw [litIndices_alternatingFrame n c h true, litIndices_alternatingFrame n c h false]
    rw [List.mem_range] at hi
    rcases Nat.mod_two_eq_zero_or_one i with h2 | h2 <;>
      simp [List.mem_filter, List.mem_range, hi, h2]

unseal Rat.add Rat.mul Rat.inv Rat.sub Rat.ofScientific in
/-- Witness for c9_alternating on two LEDs with a visible color. -/
theorem c9_alternating_witness : whiteC ≠ Color.BLACK ∧ AlternatingSpec 2 whiteC :=
  ⟨by decide, c9_alternating 2 whiteC (by decide)⟩

/-- Claim C10: whatever the parameters and however the run ends, every
Blink.start trace begins with the black fill followed by the fixed
0.5-second pre-delay: the first device call of every blink run is an
off fill, never the requested color. -/
theorem c10_blink_prelude (c : Color) (m : Nat) (rep : Bool) (timeout : Option ℚ)
    (oneShot : Bool) (env : Env) (fuel : Nat) (tr : List LedOp)
    (h : blinkTrace c m rep timeout oneShot env fuel = some tr) :
    tr.take 2 = [LedOp.fill Color.BLACK, LedOp.wait 0.5] ∧
    tr.head? = some (LedOp.fill Color.BLACK) := by
  rcases Option.map_eq_some'.mp h with ⟨t, _, rfl⟩
  exact ⟨rfl, rfl⟩

/-- Witness for c10_blink_prelude on a run that stops at the first
poll. -/
theorem c10_blink_prelude_witness :
    ([LedOp.fill Color.BLACK, LedOp.wait 0.5].take 2 =
      [LedOp.fill Color.BLACK, LedOp.wait 0.5]) ∧
    ([LedOp.fill Color.BLACK, LedOp.wait 0.5].head? =
      some (LedOp.fill Color.BLACK)) :=
  c10_blink_prelude whiteC 0 false none false envStopAlways 1
    [LedOp.fill Color.BLACK, LedOp.wait 0.5] rfl

end LedAnimations
